import Mathlib

/-!
Shallow embedding of `get-app-critical-findings.py`, a command-line script
that resolves an application name to an id and prints that application's
critical findings.  Python strings are Lean `String`s, Python dicts (which
preserve insertion order) are ordered association lists, and code that can
raise an exception returns `Except PyErr`.  Network responses are passed in
as explicit values: `AppsResp` stands for the decoded body and transport
status of the `GET .../apps` call, `FindingsResp` for the
`GET .../findings` call.
-/

namespace Vulnado

/-- Exceptions the script can raise: `KeyError` from `os.environ[...]`,
`IndexError` from `[...][0]` (CPython message `list index out of range`),
and `requests.HTTPError` from `raise_for_status()`. -/
inductive PyErr where
  | keyError (key : String)
  | indexError (msg : String)
  | httpError (status : Nat)
deriving DecidableEq

/-- The opening brace character, written by code point to keep brace
characters out of string literals. -/
def lbrace : Char := Char.ofNat 123

/-- The closing brace character. -/
def rbrace : Char := Char.ofNat 125

/-- The placeholder pattern for key `k`: brace, the key, closing brace
(the Python source builds it as a three-part concatenation). -/
def braced (k : String) : String :=
  (lbrace :: (k.data ++ [rbrace])).asString

/-- Fuel-indexed core of Python `str.replace`: scan left to right, replace
each non-overlapping occurrence of `old`, continue after the inserted
`new`.  One unit of fuel is spent per examined position, so fuel equal to
the length of the scanned list always suffices.  The script only ever
replaces brace-delimited patterns, which are non-empty; an empty `old`
is treated as matching nowhere. -/
def pyReplaceAux (old new : List Char) : Nat → List Char → List Char
  | _, [] => []
  | 0, s => s
  | fuel + 1, c :: rest =>
    if !old.isEmpty && old.isPrefixOf (c :: rest) then
      new ++ pyReplaceAux old new fuel (rest.drop (old.length - 1))
    else
      c :: pyReplaceAux old new fuel rest

/-- Python `s.replace(old, new)` for the non-empty patterns used here. -/
def pyReplaceStr (old new s : String) : String :=
  (pyReplaceAux old.data new.data s.data.length s.data).asString

/-- One assignment `d[k] = v` on an insertion-ordered dict: an existing
key keeps its position and gets the new value, a new key is appended. -/
def dSet (d : List (String × String)) (k v : String) : List (String × String) :=
  if d.any (fun p => p.1 == k) then
    d.map (fun p => if p.1 == k then (p.1, v) else p)
  else
    d ++ [(k, v)]

/-- Python `d.update(other)`: assign each entry of `other` in order. -/
def dUpdate (d other : List (String × String)) : List (String × String) :=
  other.foldl (fun acc kv => dSet acc kv.1 kv.2) d

/-- The replacement loop of `Resolver.resolve`: fold `str.replace` of each
key's braced pattern over the template, in the dict's iteration order. -/
def applyReplacements (m : List (String × String)) (template : String) : String :=
  m.foldl (fun x kv => pyReplaceStr (braced kv.1) kv.2 x) template

/-- `Resolver.resolve(template, **extra)`: build a fresh dict, update it
with the base vars, then with `extra`, and apply the replacements
sequentially. -/
def resolve (vars : List (String × String)) (template : String)
    (extra : List (String × String)) : String :=
  applyReplacements (dUpdate (dUpdate [] vars) extra) template

/-- Declared from the specification text, for comparison with `resolve`:
a single left-to-right pass over the template in which every occurrence of
a known key's placeholder is replaced by that key's mapped value, and any
other character (in particular any placeholder whose key is unknown) is
kept unchanged.  Replacement values are emitted verbatim and never
re-scanned. -/
def specSubstAux (m : List (String × String)) : Nat → List Char → List Char
  | _, [] => []
  | 0, s => s
  | fuel + 1, c :: rest =>
    match m.find? (fun kv => (braced kv.1).data.isPrefixOf (c :: rest)) with
    | some kv => kv.2.data ++ specSubstAux m fuel (rest.drop ((braced kv.1).data.length - 1))
    | none => c :: specSubstAux m fuel rest

/-- Declared from the specification text: the claimed behavior of
`resolve` as simultaneous substitution over the base mapping overlaid
with the extra mapping. -/
def specResolve (vars : List (String × String)) (template : String)
    (extra : List (String × String)) : String :=
  (specSubstAux (dUpdate (dUpdate [] vars) extra) template.data.length template.data).asString

/-- The `Resolver` object: its only state is the dict `self.vars`. -/
structure Resolver where
  vars : List (String × String)
deriving DecidableEq

/-- The fixed API base URL from `Resolver.__init__`. -/
def apiBase : String := "https://www.shiftleft.io/api/v4"

/-- `Resolver.__init__`, reading the two environment variables; the
process environment is an association list.  A missing variable raises
`KeyError` naming that variable, exactly as `os.environ[name]` does. -/
def resolverInit (env : List (String × String)) : Except PyErr Resolver :=
  match env.lookup "SHIFTLEFT_API_TOKEN" with
  | none => .error (.keyError "SHIFTLEFT_API_TOKEN")
  | some api_token =>
    match env.lookup "SHIFTLEFT_ORG_ID" with
    | none => .error (.keyError "SHIFTLEFT_ORG_ID")
    | some org_id =>
      .ok ⟨[("authHDR", "Bearer " ++ api_token),
            ("api_base", apiBase),
            ("orgID", org_id)]⟩

/-- `requests.Response.raise_for_status()`: raise `HTTPError` when the
status code is in `[400, 600)`, otherwise return normally. -/
def raise_for_status (status : Nat) : Except PyErr Unit :=
  if 400 ≤ status ∧ status < 600 then .error (.httpError status) else .ok ()

/-- One record of the `response` array of the list-applications body. -/
structure App where
  id : String
  name : String
deriving DecidableEq

/-- The list-applications HTTP exchange as seen by `get_app_id`: the
transport status and the decoded `response` array. -/
structure AppsResp where
  status : Nat
  response : List App
deriving DecidableEq

/-- Python `l[0]`: the head of the list, or `IndexError` with CPython's
message when the list is empty. -/
def pyIndex0 {α : Type} : List α → Except PyErr α
  | [] => .error (.indexError "list index out of range")
  | a :: _ => .ok a

/-- `get_app_id(appname)` applied to the decoded response: after
`raise_for_status`, evaluate
`[x['id'] for x in response if x['name'] == appname][0]`. -/
def get_app_id (r : AppsResp) (appname : String) : Except PyErr String :=
  match raise_for_status r.status with
  | .error e => .error e
  | .ok _ => pyIndex0 ((r.response.filter (fun x => x.name == appname)).map App.id)

/-- One record of the findings array: the two fields the script reads. -/
structure Finding where
  id : String
  title : String
deriving DecidableEq

/-- The list-findings HTTP exchange as seen by `get_crit_findings`:
transport status, the optional `next_page` field of the body, and the
`response.findings` array.  `next_page` is modelled as an optional
integer page number; Python truthiness makes `None` and `0` falsy. -/
structure FindingsResp where
  status : Nat
  next_page : Option Int
  findings : List Finding
deriving DecidableEq

/-- Python truthiness of the `next_page` value. -/
def truthy : Option Int → Bool
  | none => false
  | some n => n != 0

/-- The warning line printed when `next_page` is truthy. -/
def truncWarning : String := "!!! Warning: results truncated to 249 findings"

/-- `get_crit_findings(appid)` applied to the decoded response: after
`raise_for_status`, print the truncation warning when `next_page` is
truthy, and return `response['findings']`.  The first component collects
the lines printed by the call. -/
def get_crit_findings (r : FindingsResp) : Except PyErr (List String × List Finding) :=
  match raise_for_status r.status with
  | .error e => .error e
  | .ok _ =>
    .ok ((if truthy r.next_page then [truncWarning] else []), r.findings)

/-- Python's `<` on strings, on the underlying character lists: compare
code points position by position; a strict prefix is smaller. -/
def charsLt : List Char → List Char → Bool
  | _, [] => false
  | [], _ :: _ => true
  | a :: as, b :: bs =>
    if a < b then true
    else if b < a then false
    else charsLt as bs

/-- Python's `<=` on strings: the negation of the reversed `<`. -/
def strLe (a b : String) : Prop := charsLt b.data a.data = false

instance : DecidableRel strLe := fun a b =>
  inferInstanceAs (Decidable (charsLt b.data a.data = false))

theorem charsLt_irrefl (a : List Char) : charsLt a a = false := by
  induction a with
  | nil => rfl
  | cons a0 as ih => simp [charsLt, lt_irrefl, ih]

theorem charsLt_trans (a : List Char) :
    ∀ b c : List Char, charsLt a b = true → charsLt b c = true → charsLt a c = true := by
  induction a with
  | nil =>
    intro b c _ hbc
    cases c with
    | nil => cases b <;> simp [charsLt] at hbc
    | cons c0 cs => simp [charsLt]
  | cons a0 as ih =>
    intro b c hab hbc
    cases b with
    | nil => simp [charsLt] at hab
    | cons b0 bs =>
      cases c with
      | nil => simp [charsLt] at hbc
      | cons c0 cs =>
        simp only [charsLt] at hab hbc ⊢
        by_cases h1 : a0 < b0
        · by_cases h2 : b0 < c0
          · simp [lt_trans h1 h2]
          · by_cases h3 : c0 < b0
            · rw [if_neg h2, if_pos h3] at hbc
              exact absurd hbc (by simp)
            · have hbc0 : b0 = c0 := le_antisymm (not_lt.mp h3) (not_lt.mp h2)
              subst hbc0
              simp [h1]
        · by_cases h1' : b0 < a0
          · rw [if_neg h1, if_pos h1'] at hab
            exact absurd hab (by simp)
          · have hab0 : a0 = b0 := le_antisymm (not_lt.mp h1') (not_lt.mp h1)
            subst hab0
            rw [if_neg h1, if_neg h1'] at hab
            by_cases h2 : a0 < c0
            · simp [h2]
            · by_cases h3 : c0 < a0
              · rw [if_neg h2, if_pos h3] at hbc
                exact absurd hbc (by simp)
              · rw [if_neg h2, if_neg h3] at hbc ⊢
                exact ih bs cs hab hbc

theorem charsLt_trichotomy (a : List Char) :
    ∀ b : List Char, charsLt a b = true ∨ a = b ∨ charsLt b a = true := by
  induction a with
  | nil =>
    intro b
    cases b with
    | nil => exact Or.inr (Or.inl rfl)
    | cons b0 bs => exact Or.inl (by simp [charsLt])
  | cons a0 as ih =>
    intro b
    cases b with
    | nil => exact Or.inr (Or.inr (by simp [charsLt]))
    | cons b0 bs =>
      rcases lt_trichotomy a0 b0 with h | h | h
      · exact Or.inl (by simp [charsLt, h])
      · subst h
        rcases ih bs with h2 | h2 | h2
        · exact Or.inl (by simp [charsLt, lt_irrefl, h2])
        · exact Or.inr (Or.inl (by rw [h2]))
        · exact Or.inr (Or.inr (by simp [charsLt, lt_irrefl, h2]))
      · exact Or.inr (Or.inr (by simp [charsLt, h]))

theorem charsLt_asymm {a b : List Char} (h : charsLt a b = true) : charsLt b a = false := by
  rcases Bool.eq_false_or_eq_true (charsLt b a) with hba | hba
  · have := charsLt_trans a b a h hba
    rw [charsLt_irrefl] at this
    exact absurd this (by simp)
  · exact hba

theorem string_eq_of_data_eq {a b : String} (h : a.data = b.data) : a = b :=
  String.toList_inj.mp h

theorem strLe_trans {a b c : String} (h1 : strLe a b) (h2 : strLe b c) : strLe a c := by
  have h1' : charsLt b.data a.data = false := h1
  have h2' : charsLt c.data b.data = false := h2
  show charsLt c.data a.data = false
  rcases Bool.eq_false_or_eq_true (charsLt c.data a.data) with hca | hca
  · rcases charsLt_trichotomy a.data b.data with h | h | h
    · have hcb := charsLt_trans c.data a.data b.data hca h
      rw [h2'] at hcb
      exact absurd hcb (by simp)
    · rw [← h] at h2'
      rw [hca] at h2'
      exact absurd h2' (by simp)
    · rw [h1'] at h
      exact absurd h (by simp)
  · exact hca

/-- Python's ordering on `(id, title)` pairs of strings, as compared by
`sorted`: compare the first components, and on equality compare the
second. -/
def tupLE (a b : String × String) : Prop :=
  charsLt a.1.data b.1.data = true ∨ (a.1 = b.1 ∧ strLe a.2 b.2)

instance : DecidableRel tupLE := fun a b =>
  inferInstanceAs (Decidable (charsLt a.1.data b.1.data = true ∨ (a.1 = b.1 ∧ strLe a.2 b.2)))

instance : IsTotal (String × String) tupLE :=
  ⟨fun a b => by
    rcases charsLt_trichotomy a.1.data b.1.data with h | h | h
    · exact Or.inl (Or.inl h)
    · have he : a.1 = b.1 := string_eq_of_data_eq h
      rcases charsLt_trichotomy a.2.data b.2.data with h2 | h2 | h2
      · exact Or.inl (Or.inr ⟨he, charsLt_asymm h2⟩)
      · refine Or.inl (Or.inr ⟨he, ?_⟩)
        show charsLt b.2.data a.2.data = false
        rw [← h2]
        exact charsLt_irrefl _
      · exact Or.inr (Or.inr ⟨he.symm, charsLt_asymm h2⟩)
    · exact Or.inr (Or.inl h)⟩

instance : IsTrans (String × String) tupLE :=
  ⟨fun a b c hab hbc => by
    have hab' : charsLt a.1.data b.1.data = true ∨ (a.1 = b.1 ∧ strLe a.2 b.2) := hab
    have hbc' : charsLt b.1.data c.1.data = true ∨ (b.1 = c.1 ∧ strLe b.2 c.2) := hbc
    rcases hab' with h1 | ⟨h1e, h1le⟩
    · rcases hbc' with h2 | ⟨h2e, _⟩
      · exact Or.inl (charsLt_trans _ _ _ h1 h2)
      · exact Or.inl (by rw [← h2e]; exact h1)
    · rcases hbc' with h2 | ⟨h2e, h2le⟩
      · exact Or.inl (by rw [h1e]; exact h2)
      · exact Or.inr ⟨h1e.trans h2e, strLe_trans h1le h2le⟩⟩

/-- Python's `sorted` on the tuple list: a stable sort with respect to
the tuple comparison; for a total transitive comparison the stable sort
is unique, so the stable `insertionSort` is an exact model. -/
def sortFindings (l : List (String × String)) : List (String × String) :=
  List.insertionSort tupLE l

/-- `'#%s %s' % (id, title)` for string-valued fields. -/
def fmtLine (p : String × String) : String := "#" ++ p.1 ++ " " ++ p.2

/-- Line 157 of the script: the sorted `(id, title)` pairs. -/
def reportPairs (findings : List Finding) : List (String × String) :=
  sortFindings (findings.map (fun x => (x.id, x.title)))

/-- Line 160 of the script: the formatted per-finding lines. -/
def reportLines (findings : List Finding) : List String :=
  (reportPairs findings).map fmtLine

/-- Lines 160-163 of the script: the lines the report block prints.
When the formatted list is empty nothing is printed; otherwise the
header line is followed by one line per finding. -/
def mainOutput (findings : List Finding) : List String :=
  if reportLines findings = [] then []
  else "Critical severity findings:" :: reportLines findings

/-- The literal argument of `print` in `usage()` (the script passes the
format string itself to `print`, with no operands applied). -/
def usageLine : String := "usage: %s <app_name>\n"

/-- The `__main__` block, from module import onward: constructing the
module-level `Resolver` happens first (line 55, at import time), then the
argument check, then the two fetches, then the report.  All printed lines
are collected in order; the non-zero exit status of the usage path is not
modelled. -/
def pyMain (env : List (String × String)) (argv : List String)
    (appsResp : AppsResp) (findResp : FindingsResp) : Except PyErr (List String) :=
  match resolverInit env with
  | .error e => .error e
  | .ok _resolver =>
    if argv.length < 2 then .ok [usageLine]
    else
      match get_app_id appsResp (argv.getD 1 "") with
      | .error e => .error e
      | .ok _app_id =>
        match get_crit_findings findResp with
        | .error e => .error e
        | .ok wf => .ok (wf.1 ++ mainOutput wf.2)

/-- A store of dict objects, addressed by position, used to express that
`resolve` mutates only the fresh dict it allocates. -/
structure PyHeap where
  dicts : List (List (String × String))

/-- `Resolver.resolve` with the dict store explicit: read `self.vars`
from `addr`, allocate a fresh empty dict (`_vars` at a fresh address),
update it with the base vars and then with `extra`, and substitute using
the fresh dict.  The returned store holds the mutated fresh dict. -/
def resolveHeap (hp : PyHeap) (addr : Nat) (template : String)
    (extra : List (String × String)) : String × PyHeap :=
  let base := hp.dicts.getD addr []
  let merged := dUpdate (dUpdate [] base) extra
  (applyReplacements merged template, ⟨hp.dicts ++ [merged]⟩)

/-- Substring test used to inspect exception messages. -/
def containsSub (pat : List Char) : List Char → Bool
  | [] => pat.isEmpty
  | c :: rest => pat.isPrefixOf (c :: rest) || containsSub pat rest

theorem tupLE_fst {a b : String × String} (h : tupLE a b) : strLe a.1 b.1 := by
  have h' : charsLt a.1.data b.1.data = true ∨ (a.1 = b.1 ∧ strLe a.2 b.2) := h
  show charsLt b.1.data a.1.data = false
  rcases h' with h1 | ⟨h1, _⟩
  · exact charsLt_asymm h1
  · rw [h1]
    exact charsLt_irrefl _

theorem filter_eq_nil_of_false {α : Type} (p : α → Bool) (l : List α)
    (h : ∀ x ∈ l, p x = false) : l.filter p = [] := by
  induction l with
  | nil => rfl
  | cons a t ih =>
    have ha := h a (List.mem_cons_self a t)
    simp only [List.filter_cons, ha, Bool.false_eq_true, if_false]
    exact ih (fun x hx => h x (List.mem_cons_of_mem a hx))

/-- C1: for every findings payload the per-finding report lines come out
in non-decreasing order of the findings' `id` values (under Python's
string comparison), and every printed line is the character `#` followed
by the finding's id, one space, and the finding's title. -/
theorem report_sorted_and_formatted (findings : List Finding) :
    List.Pairwise (fun a b : String × String => strLe a.1 b.1) (reportPairs findings)
    ∧ ∀ line ∈ reportLines findings, ∃ x ∈ findings, line = "#" ++ x.id ++ " " ++ x.title := by
  constructor
  · have hs := List.sorted_insertionSort tupLE (findings.map (fun x => (x.id, x.title)))
    exact List.Pairwise.imp (fun hab => tupLE_fst hab) hs
  · intro line hline
    simp only [reportLines, List.mem_map] at hline
    obtain ⟨p, hp, rfl⟩ := hline
    have hp2 : p ∈ findings.map (fun x => (x.id, x.title)) :=
      (List.perm_insertionSort tupLE (findings.map (fun x => (x.id, x.title)))).subset hp
    obtain ⟨x, hx, rfl⟩ := List.mem_map.mp hp2
    exact ⟨x, hx, rfl⟩

/-- Witness for C1 at a concrete payload: the line for the finding with
id `1` is present and formatted from a finding of the payload. -/
theorem report_sorted_and_formatted_witness :
    ∃ x ∈ [(⟨"2", "b"⟩ : Finding), ⟨"1", "a"⟩], "#1 a" = "#" ++ x.id ++ " " ++ x.title :=
  (report_sorted_and_formatted [⟨"2", "b"⟩, ⟨"1", "a"⟩]).2 "#1 a" (by decide)

/-- C2 counterexample: a payload with two findings sharing id `1`
produces two report lines from findings with the same id, so the printed
list is not de-duplicated by id. -/
theorem report_not_deduplicated :
    mainOutput [⟨"1", "a"⟩, ⟨"1", "a"⟩] = ["Critical severity findings:", "#1 a", "#1 a"]
    ∧ ¬ List.Pairwise (fun p q : String × String => p.1 ≠ q.1)
        (reportPairs [⟨"1", "a"⟩, ⟨"1", "a"⟩]) := by
  constructor
  · rfl
  · intro h
    have he : reportPairs [⟨"1", "a"⟩, ⟨"1", "a"⟩] = [("1", "a"), ("1", "a")] := by decide
    rw [he] at h
    cases h with
    | cons h1 _ => exact h1 ("1", "a") (List.mem_cons_self _ _) rfl

/-- C2 amended: the entry point performs no de-duplication at all: it
prints exactly one report line per finding of the payload, duplicates
included. -/
theorem report_line_count (findings : List Finding) :
    (reportLines findings).length = findings.length := by
  simp only [reportLines, reportPairs, sortFindings, List.length_map]
  rw [(List.perm_insertionSort tupLE (findings.map (fun x => (x.id, x.title)))).length_eq,
    List.length_map]

/-- C3 counterexample: two findings with equal id `1` and titles `b`, `a`
in that payload order come out reordered as `a`, `b`: the tie is broken
by the title comparison, not by the original payload order. -/
theorem sort_not_stable_on_id :
    reportPairs [⟨"1", "b"⟩, ⟨"1", "a"⟩] = [("1", "a"), ("1", "b")]
    ∧ reportPairs [⟨"1", "b"⟩, ⟨"1", "a"⟩] ≠ [("1", "b"), ("1", "a")] := by
  constructor
  · decide
  · decide

/-- C3 amended: the sort key is the whole `(id, title)` pair, so ties on
id are ordered by title; the sorted pairs are a permutation of the
payload's `(id, title)` pairs ordered by the pair comparison. -/
theorem sort_key_is_id_title_pair (findings : List Finding) :
    List.Pairwise tupLE (reportPairs findings)
    ∧ (reportPairs findings).Perm (findings.map (fun x => (x.id, x.title))) :=
  ⟨List.sorted_insertionSort tupLE _, List.perm_insertionSort tupLE _⟩

/-- C4 counterexample: replacements are applied sequentially, one key at
a time, so an extra value that itself contains a later key's placeholder
is substituted again.  Simultaneous substitution, declared from the
spec's words as `specResolve`, would leave that value verbatim: the two
functions disagree on this input. -/
theorem resolve_not_simultaneous :
    resolve [("api_base", "https://x"), ("orgID", "42")] "\x7bapi_base\x7d"
        [("api_base", "\x7borgID\x7d")] = "42"
    ∧ specResolve [("api_base", "https://x"), ("orgID", "42")] "\x7bapi_base\x7d"
        [("api_base", "\x7borgID\x7d")] = "\x7borgID\x7d"
    ∧ resolve [("api_base", "https://x"), ("orgID", "42")] "\x7bapi_base\x7d"
        [("api_base", "\x7borgID\x7d")]
      ≠ specResolve [("api_base", "https://x"), ("orgID", "42")] "\x7bapi_base\x7d"
        [("api_base", "\x7borgID\x7d")] :=
  ⟨rfl, rfl, by decide⟩

/-- C4 amended: `resolve` overlays the base mapping with the extra
mapping (extra wins on collision) and applies the replacements
sequentially in the merged mapping's order; on the spec's two showcased
inputs, whose values contain no placeholders, this yields exactly the
claimed results. -/
theorem resolve_examples :
    resolve [("api_base", "https://x"), ("orgID", "42")]
        "\x7bapi_base\x7d/orgs/\x7borgID\x7d/apps" [] = "https://x/orgs/42/apps"
    ∧ resolve [("api_base", "https://x"), ("orgID", "42")]
        "\x7bapi_base\x7d/orgs/\x7borgID\x7d/apps/\x7bappID\x7d/findings"
        [("appID", "7")] = "https://x/orgs/42/apps/7/findings" :=
  ⟨rfl, rfl⟩

/-- C5: when the filtered response decomposes with `a` as the first
record whose `name` equals `appname` (string equality, hence exact and
case-sensitive), `get_app_id` returns `a`'s id. -/
theorem get_app_id_first_match (r : AppsResp) (appname : String) (a : App) (rest : List App)
    (hst : r.status < 400)
    (hfilter : r.response.filter (fun x => x.name == appname) = a :: rest) :
    get_app_id r appname = Except.ok a.id := by
  have hne : ¬(400 ≤ r.status ∧ r.status < 600) := fun hc => absurd hst (by omega)
  simp only [get_app_id, raise_for_status, if_neg hne, hfilter, List.map_cons, pyIndex0]

/-- Witness for C5: among `app`, `App`, `App` the lookup of `App` skips
the lower-case `app` (exact match only) and returns the id of the first
exact match. -/
theorem get_app_id_first_match_witness :
    get_app_id ⟨200, [⟨"1", "app"⟩, ⟨"2", "App"⟩, ⟨"3", "App"⟩]⟩ "App" = Except.ok "2" :=
  get_app_id_first_match _ "App" ⟨"2", "App"⟩ [⟨"3", "App"⟩] (by decide) (by decide)

/-- C6 counterexample: on a response with no matching record the code
fails with `IndexError` carrying CPython's message
`list index out of range`, which does not mention `not found`: the
failure is an index fault, not a descriptive not-found error. -/
theorem get_app_id_error_lacks_not_found :
    get_app_id ⟨200, []⟩ "myapp" = Except.error (PyErr.indexError "list index out of range")
    ∧ containsSub "not found".data "list index out of range".data = false :=
  ⟨rfl, rfl⟩

/-- C6 amended: when no record's name equals the requested name,
`get_app_id` returns no id at all: it fails with the index/lookup error
raised by indexing the empty list of matches. -/
theorem get_app_id_no_match (r : AppsResp) (appname : String)
    (hst : r.status < 400)
    (hnone : ∀ x ∈ r.response, x.name ≠ appname) :
    get_app_id r appname = Except.error (PyErr.indexError "list index out of range") := by
  have hne : ¬(400 ≤ r.status ∧ r.status < 600) := fun hc => absurd hst (by omega)
  have hfil : r.response.filter (fun x => x.name == appname) = [] :=
    filter_eq_nil_of_false _ _ (fun x hx => by
      rw [beq_eq_false_iff_ne]
      exact hnone x hx)
  simp only [get_app_id, raise_for_status, if_neg hne, hfil, List.map_nil, pyIndex0]

/-- Witness for the amended C6 at a concrete response with one
non-matching record. -/
theorem get_app_id_no_match_witness :
    get_app_id ⟨200, [⟨"1", "app"⟩]⟩ "App"
      = Except.error (PyErr.indexError "list index out of range") :=
  get_app_id_no_match ⟨200, [⟨"1", "app"⟩]⟩ "App" (by decide) (by decide)

/-- C7: if either required environment variable is absent, the run fails
with a `KeyError` naming a missing variable, and it does so for every
possible pair of network responses: the failure happens at resolver
construction, before any response is examined. -/
theorem missing_env_fails_before_network (env : List (String × String)) (argv : List String)
    (appsResp : AppsResp) (findResp : FindingsResp)
    (h : env.lookup "SHIFTLEFT_API_TOKEN" = none ∨ env.lookup "SHIFTLEFT_ORG_ID" = none) :
    ∃ v, (v = "SHIFTLEFT_API_TOKEN" ∨ v = "SHIFTLEFT_ORG_ID") ∧ env.lookup v = none ∧
      pyMain env argv appsResp findResp = Except.error (PyErr.keyError v) := by
  cases htok : env.lookup "SHIFTLEFT_API_TOKEN" with
  | none =>
    exact ⟨"SHIFTLEFT_API_TOKEN", Or.inl rfl, htok, by simp [pyMain, resolverInit, htok]⟩
  | some tok =>
    have horg : env.lookup "SHIFTLEFT_ORG_ID" = none := by
      rcases h with h1 | h2
      · rw [htok] at h1
        exact absurd h1 (by simp)
      · exact h2
    exact ⟨"SHIFTLEFT_ORG_ID", Or.inr rfl, horg, by simp [pyMain, resolverInit, htok, horg]⟩

/-- Witness for C7: the empty environment fails with the token
`KeyError` on concrete responses. -/
theorem missing_env_fails_before_network_witness :
    ∃ v, (v = "SHIFTLEFT_API_TOKEN" ∨ v = "SHIFTLEFT_ORG_ID")
      ∧ ([] : List (String × String)).lookup v = none
      ∧ pyMain [] ["prog", "app"] ⟨200, []⟩ ⟨200, none, []⟩ = Except.error (PyErr.keyError v) :=
  missing_env_fails_before_network [] ["prog", "app"] ⟨200, []⟩ ⟨200, none, []⟩ (Or.inl rfl)

/-- C8: on a successful response, `get_crit_findings` does not fail and
returns exactly the first page's findings array; it prints the
truncation warning exactly once when `next_page` is truthy, and prints
no warning otherwise. -/
theorem get_crit_findings_first_page (r : FindingsResp) (hst : r.status < 400) :
    ∃ warns : List String,
      get_crit_findings r = Except.ok (warns, r.findings)
      ∧ (truthy r.next_page = true → warns = [truncWarning])
      ∧ (truthy r.next_page = false → warns = []) := by
  have hne : ¬(400 ≤ r.status ∧ r.status < 600) := fun hc => absurd hst (by omega)
  refine ⟨if truthy r.next_page then [truncWarning] else [], ?_, ?_, ?_⟩
  · simp [get_crit_findings, raise_for_status, if_neg hne]
  · intro h
    rw [if_pos h]
  · intro h
    have hnt : ¬ (truthy r.next_page = true) := by simp [h]
    rw [if_neg hnt]

/-- Witness for C8 at a concrete truthy-`next_page` response. -/
theorem get_crit_findings_first_page_witness :
    ∃ warns : List String,
      get_crit_findings ⟨200, some 2, [⟨"9", "t"⟩]⟩ = Except.ok (warns, [⟨"9", "t"⟩])
      ∧ (truthy (some 2) = true → warns = [truncWarning])
      ∧ (truthy (some 2) = false → warns = []) :=
  get_crit_findings_first_page ⟨200, some 2, [⟨"9", "t"⟩]⟩ (by decide)

/-- C9: with an empty findings list the report block prints nothing at
all: no header line and no finding lines. -/
theorem empty_findings_no_output : mainOutput [] = ([] : List String) := rfl

/-- C10: `resolve` computes on a freshly allocated merged dict: the dict
holding the resolver's base vars is unchanged in the resulting store,
and the returned string is the pure substitution over the base vars and
the extras. -/
theorem resolve_preserves_base_vars (hp : PyHeap) (addr : Nat) (template : String)
    (extra : List (String × String)) (h : addr < hp.dicts.length) :
    (resolveHeap hp addr template extra).2.dicts.getD addr [] = hp.dicts.getD addr []
    ∧ (resolveHeap hp addr template extra).1
      = resolve (hp.dicts.getD addr []) template extra := by
  constructor
  · exact List.getD_append _ _ _ _ h
  · rfl

/-- Witness for C10 at a one-dict store. -/
theorem resolve_preserves_base_vars_witness :
    (resolveHeap ⟨[[("orgID", "42")]]⟩ 0 "x" []).2.dicts.getD 0 []
      = (⟨[[("orgID", "42")]]⟩ : PyHeap).dicts.getD 0 []
    ∧ (resolveHeap ⟨[[("orgID", "42")]]⟩ 0 "x" []).1
      = resolve ((⟨[[("orgID", "42")]]⟩ : PyHeap).dicts.getD 0 []) "x" [] :=
  resolve_preserves_base_vars ⟨[[("orgID", "42")]]⟩ 0 "x" [] (by decide)

end Vulnado
